import Mathlib

/-!
# Karui-Search: verification of the specified behaviour against the code

Shallow embedding of the Karui-Search frontend service layer
(`src/frontend/src/services/mockApi.ts`, `src/frontend/src/utils/formatting.ts`)
and, where the ingestion core exists only as design documents, models built
from the specification text.

Modelling conventions:
* JavaScript strings are Lean `String`s / `List Char` (JS UTF-16 code units
  and Lean chars agree on all characters appearing here, which lie in the BMP).
* JavaScript numbers are modelled as exact rationals; `Option ℚ` is used where
  `NaN` can arise (`none` = `NaN`).  All quantities in the proved statements
  are integers far below 2^53, where IEEE doubles are exact.
* A JS `Set` is a `Finset` (only `has`/`add`/`delete` are used, never
  iteration order).
* `Date` parsing (`new Date(s).getTime()`) is abstracted as an explicit
  parameter `dateMs : String → Int`.
-/

namespace KaruiSearch

/-! ## Price parsing (`parsePrice` in formatting.ts and mockApi.ts)

The two copies of `parsePrice` in the repository are identical:

```js
if (!priceString) return 0;
if (priceString.includes('万円')) {
  const match = priceString.match(/¥?([0-9,]+(?:\.[0-9]+)?)万円/);
  if (match) return parseFloat(match[1].replace(/,/g, '')) * 10000;
}
if (priceString.includes('億円')) {
  const match = priceString.match(/¥?([0-9,]+(?:\.[0-9]+)?)億円/);
  if (match) return parseFloat(match[1].replace(/,/g, '')) * 100000000;
}
const numbers = priceString.replace(/[^0-9]/g, '');
return parseInt(numbers, 10) || 0;
```

The regular expression `/¥?([0-9,]+(?:\.[0-9]+)?)万円/` is embedded as a
deterministic maximal-munch matcher.  This is faithful: backtracking a
greedy `[0-9,]+` (or the inner `[0-9]+`) leaves the scan position on a
digit-or-comma character, which can never begin `\.` or the literal suffix,
so shortening a maximal run never turns a failure into a success; and when
`¥?` can consume a `¥`, declining it makes `[0-9,]+` fail at once, so the
greedy choice is the only viable one. -/

/-- Character class `[0-9,]` of the price regex. -/
def isDigitOrComma (c : Char) : Bool :=
  c.isDigit || c == ','

/-- Value of a digit string read in base 10 (the integer part of
`parseFloat`/`parseInt` on a digits-only string). -/
def digitsToNat (ds : List Char) : ℕ :=
  ds.foldl (fun n c => 10 * n + (c.toNat - 48)) 0

/-- JS `parseFloat` applied to the comma-stripped capture group: an optional
integer part `ds` and an optional fractional part `frac` (digits after a
dot).  `parseFloat("")` is `NaN`, modelled as `none`. -/
def jsDecValue (ds : List Char) (frac : Option (List Char)) : Option ℚ :=
  match frac with
  | none => if ds = [] then none else some (digitsToNat ds : ℚ)
  | some fs => some ((digitsToNat ds : ℚ) + (digitsToNat fs : ℚ) / (10 : ℚ) ^ fs.length)

/-- JS `.replace(/,/g, '')` on the capture group. -/
def stripCommas (cs : List Char) : List Char :=
  cs.filter (fun c => !(c == ','))

/-- The `¥?` part of the regex: consume a leading `¥` when present. -/
def skipYen (cs : List Char) : List Char :=
  if cs.head? = some '¥' then cs.tail else cs

/-- One anchored attempt of `¥?([0-9,]+(?:\.[0-9]+)?)` followed by the unit
`sfx` at the current scan position; returns the integer-part run and the
optional fractional digits of the capture group. -/
def matchNumUnitAt (sfx : List Char) (cs : List Char) :
    Option (List Char × Option (List Char)) :=
  let cs2 := skipYen cs
  let run := cs2.takeWhile isDigitOrComma
  let rest := cs2.dropWhile isDigitOrComma
  if run = [] then none
  else if rest.head? = some '.' then
    let rest2 := rest.tail
    let frac := rest2.takeWhile Char.isDigit
    let rest3 := rest2.dropWhile Char.isDigit
    if frac ≠ [] ∧ List.isPrefixOf sfx rest3 then some (run, some frac)
    else if List.isPrefixOf sfx rest then some (run, none)
    else none
  else if List.isPrefixOf sfx rest then some (run, none)
  else none

/-- Leftmost match of the price regex: try every start position from the
left, as `String.prototype.match` does. -/
def findNumUnit (sfx : List Char) : List Char → Option (List Char × Option (List Char))
  | [] => none
  | c :: cs =>
    match matchNumUnitAt sfx (c :: cs) with
    | some r => some r
    | none => findNumUnit sfx cs

/-- The unit `万円` (×10,000). -/
def manUnit : List Char := ['万', '円']

/-- The unit `億円` (×100,000,000). -/
def okuUnit : List Char := ['億', '円']

/-- JS `parseInt(numbers, 10) || 0` applied to the digits-only residue:
`parseInt("")` is `NaN`, and `NaN || 0` is `0`. -/
def parseIntOr0 (ds : List Char) : ℚ :=
  if ds = [] then 0 else (digitsToNat ds : ℚ)

/-- Fallback branch of `parsePrice`: strip every non-digit and read the rest
as an integer. -/
def parsePricePlain (cs : List Char) : Option ℚ :=
  some (parseIntOr0 (cs.filter Char.isDigit))

/-- JS `parsePrice` after the `万円` block fell through: the `億円` block, then
the plain-digits fallback. -/
def parsePriceOku (cs : List Char) : Option ℚ :=
  if okuUnit.IsInfix cs then
    match findNumUnit okuUnit cs with
    | some (run, frac) => (jsDecValue (stripCommas run) frac).map (· * 100000000)
    | none => parsePricePlain cs
  else parsePricePlain cs

/-- JS `parsePrice` on the character list of the input string. -/
def parsePriceL (cs : List Char) : Option ℚ :=
  if cs = [] then some 0
  else if manUnit.IsInfix cs then
    match findNumUnit manUnit cs with
    | some (run, frac) => (jsDecValue (stripCommas run) frac).map (· * 10000)
    | none => parsePriceOku cs
  else parsePriceOku cs

/-- JS `parsePrice(priceString)` of formatting.ts / mockApi.ts. -/
def parsePrice (s : String) : Option ℚ :=
  parsePriceL s.toList


/-! ## Text truncation (`truncateText` in formatting.ts)

```js
export const truncateText = (text: string, maxLength: number): string => {
  if (!text || text.length <= maxLength) {
    return text;
  }
  return text.substring(0, maxLength) + '...';
};
```
-/

/-- JS `truncateText(text, maxLength)`; the cap is a natural number (the callers
pass non-negative literals). -/
def truncateText (text : String) (maxLength : ℕ) : String :=
  if text = "" ∨ text.length ≤ maxLength then text
  else String.mk (text.toList.take maxLength ++ ['.', '.', '.'])

/-! ## The frontend data model (`types/property.ts`)

`Property` carries the fields of the TypeScript interface; optional fields
become `Option`.  Numeric-looking fields are strings in the source too. -/

structure Property where
  id : String
  title : String
  price : String
  location : String
  property_type : Option String := none
  size_info : Option String := none
  building_age : Option String := none
  description : Option String := none
  image_urls : Option (List String) := none
  rooms : Option String := none
  source_url : String
  scraped_date : String
  date_first_seen : String
  deriving DecidableEq

/-- The price-range filter object `{min, max}`. -/
structure PriceRangeFilter where
  min : ℚ
  max : ℚ
  deriving DecidableEq

/-- The filter fields `MockApiService.getProperties` actually reads
(the declared `PropertyFilters` interface in property.ts names different
fields; the code is the authority here). -/
structure PropertyFilters where
  searchTerm : Option String := none
  propertyTypes : Option (List String) := none
  locations : Option (List String) := none
  priceRange : Option PriceRangeFilter := none
  sortBy : Option String := none
  page : Option ℕ := none
  pageSize : Option ℕ := none
  deriving DecidableEq

/-- Mutable state of the `MockApiService` singleton: the stored property
list and the favourites `Set`. -/
structure ApiState where
  properties : List Property
  favoriteIds : Finset String
  deriving DecidableEq

/-- JS truthiness of an optional string (`undefined` and `""` are falsy). -/
def optStrTruthy : Option String → Bool
  | none => false
  | some s => s ≠ ""

/-- JS truthiness of an optional number (`undefined` and `0` are falsy). -/
def optNatTruthy : Option ℕ → Bool
  | none => false
  | some n => n ≠ 0

/-- Model of `String.prototype.toLowerCase` (character-wise; the strings involved are
BMP text where this agrees with JS). -/
def jsToLower (s : String) : String :=
  String.mk (s.toList.map Char.toLower)

/-- Model of `String.prototype.includes`. -/
def strIncludes (hay needle : String) : Bool :=
  decide (needle.toList.IsInfix hay.toList)

/-- The search-term predicate used by both `getProperties` and
`searchProperties`:
`title.toLowerCase().includes(q) || location.toLowerCase().includes(q) ||
 description?.toLowerCase().includes(q)` (an absent description is falsy). -/
def matchesSearch (searchLower : String) (p : Property) : Bool :=
  strIncludes (jsToLower p.title) searchLower ||
  strIncludes (jsToLower p.location) searchLower ||
  (match p.description with
   | some d => strIncludes (jsToLower d) searchLower
   | none => false)

/-- JS `property.property_type && filters.propertyTypes!.includes(...)`. -/
def matchesType (pts : List String) (p : Property) : Bool :=
  match p.property_type with
  | some t => t ≠ "" && pts.contains t
  | none => false

/-- JS `filters.locations!.some(loc => property.location.includes(loc))`. -/
def matchesLocation (locs : List String) (p : Property) : Bool :=
  locs.any (fun loc => strIncludes p.location loc)

/-- JS `parsePrice(price) >= min && parsePrice(price) <= max`; comparisons with
`NaN` are false. -/
def matchesPriceRange (pr : PriceRangeFilter) (p : Property) : Bool :=
  match parsePrice p.price with
  | some v => decide (pr.min ≤ v ∧ v ≤ pr.max)
  | none => false

/-- Sort comparator value for the `price_asc` case, `parsePrice(a) -
parsePrice(b)`; per the ECMAScript sort algorithm a `NaN` comparator result
is treated as `0`. -/
def cmpPrices (a b : Option ℚ) : ℚ :=
  match a, b with
  | some x, some y => x - y
  | _, _ => 0

/-- The `≤`-test fed to the sort for each `sortBy` switch case (`a` sorts no
later than `b` iff the JS comparator is `≤ 0`); any value other than the
three explicit cases falls to the `date_desc` default. -/
def sortLe (dateMs : String → Int) (sortBy : String) (a b : Property) : Bool :=
  if sortBy = "price_asc" then
    decide (cmpPrices (parsePrice a.price) (parsePrice b.price) ≤ 0)
  else if sortBy = "price_desc" then
    decide (cmpPrices (parsePrice b.price) (parsePrice a.price) ≤ 0)
  else if sortBy = "date_asc" then
    decide (dateMs a.date_first_seen - dateMs b.date_first_seen ≤ 0)
  else
    decide (dateMs b.date_first_seen - dateMs a.date_first_seen ≤ 0)

/-! ## `MockApiService.getProperties`

Success path of the method (the artificial delay and the random
error-simulation throw carry no data and leave the state untouched).  Each
operation is modelled as `state → args → result × state`, mirroring which
fields the method reads and writes.  The engine's comparator sort is
modelled as a stable merge sort with the comparator's `≤`-test. -/

/-- JS `if (filters.searchTerm) { filteredProperties = filteredProperties.filter(...) }`. -/
def applySearchFilter (f : PropertyFilters) (l : List Property) : List Property :=
  if optStrTruthy f.searchTerm then
    l.filter (matchesSearch (jsToLower (f.searchTerm.getD "")))
  else l

/-- JS `if (filters.propertyTypes && filters.propertyTypes.length > 0) { ... }`. -/
def applyTypeFilter (f : PropertyFilters) (l : List Property) : List Property :=
  match f.propertyTypes with
  | some pts => if pts.length > 0 then l.filter (matchesType pts) else l
  | none => l

/-- JS `if (filters.locations && filters.locations.length > 0) { ... }`. -/
def applyLocationFilter (f : PropertyFilters) (l : List Property) : List Property :=
  match f.locations with
  | some locs => if locs.length > 0 then l.filter (matchesLocation locs) else l
  | none => l

/-- JS `if (filters.priceRange) { ... }`. -/
def applyPriceFilter (f : PropertyFilters) (l : List Property) : List Property :=
  match f.priceRange with
  | some pr => l.filter (matchesPriceRange pr)
  | none => l

/-- JS `if (filters.sortBy) { filteredProperties.sort(...) }`. -/
def applySort (dateMs : String → Int) (f : PropertyFilters) (l : List Property) :
    List Property :=
  if optStrTruthy f.sortBy then l.mergeSort (sortLe dateMs (f.sortBy.getD ""))
  else l

/-- JS `if (filters.page && filters.pageSize) { ... .slice(startIndex, endIndex) }`. -/
def applyPagination (f : PropertyFilters) (l : List Property) : List Property :=
  if optNatTruthy f.page && optNatTruthy f.pageSize then
    let startIndex := (f.page.getD 0 - 1) * f.pageSize.getD 0
    (l.take (startIndex + f.pageSize.getD 0)).drop startIndex
  else l

def getProperties (dateMs : String → Int) (st : ApiState)
    (filters : Option PropertyFilters) : List Property × ApiState :=
  match filters with
  | none => (st.properties, st)
  | some f =>
    (applyPagination f (applySort dateMs f (applyPriceFilter f
      (applyLocationFilter f (applyTypeFilter f (applySearchFilter f st.properties))))), st)

/-! ## `MockApiService.searchProperties` (autocomplete) -/

def searchProperties (st : ApiState) (query : String) : List Property × ApiState :=
  if query = "" ∨ query.length < 2 then ([], st)
  else
    let results := st.properties.filter (matchesSearch (jsToLower query))
    (results.take 10, st)

/-! ## `MockApiService.toggleFavorite` / `getFavorites` -/

def toggleFavorite (st : ApiState) (propertyId : String) : Bool × ApiState :=
  if propertyId ∈ st.favoriteIds then
    (false, { st with favoriteIds := st.favoriteIds.erase propertyId })
  else
    (true, { st with favoriteIds := insert propertyId st.favoriteIds })

def getFavorites (st : ApiState) : List Property × ApiState :=
  (st.properties.filter (fun p => decide (p.id ∈ st.favoriteIds)), st)

/-! ## `MockApiService.getWeeklyReport`

The week window is computed in the source by timezone-dependent `Date`
mutations from `now` and `weekOffset`; the window endpoints (millisecond
timestamps `startOfWeek`/`endOfWeek`) enter the model as explicit
parameters, and `new Date(s).getTime()` as `dateMs`.  The
`propertyTypes` record is modelled by its denotation as a count function
(`acc[t]` counts listings whose truthy `property_type` equals `t`). -/

/-- Bucket counters for JS `price < 30000000` etc.; all comparisons with `NaN` are
false, so a `NaN` price falls through to the final `else`. -/
structure PriceRangeCounts where
  under30m : ℕ := 0
  r30to50m : ℕ := 0
  r50to100m : ℕ := 0
  r100to200m : ℕ := 0
  over200m : ℕ := 0
  deriving DecidableEq

/-- One step of the `priceRanges` reduce. -/
def bucketAdd (acc : PriceRangeCounts) (price : Option ℚ) : PriceRangeCounts :=
  match price with
  | some v =>
    if v < 30000000 then { acc with under30m := acc.under30m + 1 }
    else if v < 50000000 then { acc with r30to50m := acc.r30to50m + 1 }
    else if v < 100000000 then { acc with r50to100m := acc.r50to100m + 1 }
    else if v < 200000000 then { acc with r100to200m := acc.r100to200m + 1 }
    else { acc with over200m := acc.over200m + 1 }
  | none => { acc with over200m := acc.over200m + 1 }

/-- JS `+` on possibly-`NaN` numbers (`NaN` poisons the sum). -/
def jsAdd (x y : Option ℚ) : Option ℚ :=
  match x, y with
  | some a, some b => some (a + b)
  | _, _ => none

/-- The `summary` of the weekly report. -/
structure WeeklySummary where
  totalListings : ℕ
  averagePrice : Option ℚ
  propertyTypes : String → ℕ
  priceRanges : PriceRangeCounts

/-- The weekly report read model. -/
structure WeeklyReportResult where
  weekStartDate : Int
  weekEndDate : Int
  newListings : List Property
  summary : WeeklySummary

/-- Whether a property's `date_first_seen` lies in the computed week window
(`propertyDate >= startOfWeek && propertyDate <= endOfWeek`). -/
def inWeekWindow (dateMs : String → Int) (startOfWeek endOfWeek : Int)
    (p : Property) : Bool :=
  decide (startOfWeek ≤ dateMs p.date_first_seen) &&
  decide (dateMs p.date_first_seen ≤ endOfWeek)

def getWeeklyReport (dateMs : String → Int) (startOfWeek endOfWeek : Int)
    (st : ApiState) : WeeklyReportResult :=
  let weekProperties := st.properties.filter (inWeekWindow dateMs startOfWeek endOfWeek)
  let totalListings := weekProperties.length
  let averagePrice : Option ℚ :=
    if totalListings > 0 then
      (weekProperties.foldl (fun sum p => jsAdd sum (parsePrice p.price)) (some 0)).map
        (· / (totalListings : ℚ))
    else some 0
  let propertyTypes : String → ℕ := fun t =>
    (weekProperties.filter (fun p => (p.property_type.getD "") ≠ "" &&
      (p.property_type.getD "") == t)).length
  let priceRanges :=
    weekProperties.foldl (fun acc p => bucketAdd acc (parsePrice p.price)) {}
  { weekStartDate := startOfWeek
    weekEndDate := endOfWeek
    newListings := weekProperties
    summary :=
      { totalListings := totalListings
        averagePrice := averagePrice
        propertyTypes := propertyTypes
        priceRanges := priceRanges } }

/-! ## Ingestion core (Validation Stage, Circuit Breaker, Rate Governor)

The repository contains the ingestion core only as design documents
(`docs/SCRAPING_DESIGN_OVERVIEW.md` and the scraper architecture notes, whose
`RateLimiter`/`ErrorHandler`/validation classes are declarations with `pass`
bodies); the components below are therefore modelled from the specification
text and marked as such. -/

/-- A scraped candidate record (spec §3 `PropertyListing`). -/
structure PropertyListing where
  title : String
  price : String
  location : String
  category : Option String := none
  size_info : Option String := none
  building_age : Option String := none
  description : Option String := none
  image_urls : List String := []
  rooms : Option String := none
  source_id : String
  source_url : String
  deriving DecidableEq

/-- Per-source validation configuration: in-scope area keywords, the
description cap, the price plausibility bounds, and an absolute-URL test
(URL syntax is abstracted as a predicate). -/
structure ValidationConfig where
  areaKeywords : List String
  descriptionCap : ℕ
  priceMin : ℚ
  priceMax : ℚ
  isAbsUrl : String → Bool

/-- A validated candidate together with its quality annotation (spec §4.6:
out-of-bounds prices are flagged, not rejected). -/
structure ValidatedListing where
  record : PropertyListing
  priceFlagged : Bool
  deriving DecidableEq

/-- Modelled from the spec: the Validation Stage (§4.6) is absent from the
repository source (the frontend type only documents it as "Max 5 images").
"Rejects a candidate if: title is empty, price has no extractable text,
location does not contain any of the source's configured in-scope area
keywords, or source URL is not a well-formed absolute URL.  Clamps free-text
description to a maximum length.  Caps image references at 5." Suspicious
prices are flagged, not rejected. -/
def validateListing (cfg : ValidationConfig) (c : PropertyListing) :
    Option ValidatedListing :=
  if c.title = "" then none
  else if c.price.toList.filter Char.isDigit = [] then none
  else if !(cfg.areaKeywords.any (fun k => strIncludes c.location k)) then none
  else if !(cfg.isAbsUrl c.source_url) then none
  else
    let flagged := match parsePrice c.price with
      | some v => decide (v < cfg.priceMin ∨ cfg.priceMax < v)
      | none => true
    some
      { record :=
          { c with
            description := c.description.map (fun d => truncateText d cfg.descriptionCap)
            image_urls := c.image_urls.take 5 }
        priceFlagged := flagged }

/-! ### Circuit Breaker (spec §4.2, §8) -/

/-- Closed→Open threshold: 5 consecutive failures. -/
def consecFailureLimit : ℕ := 5

/-- Rolling window length for the failure-rate trigger. -/
def rateWindowSize : ℕ := 10

/-- Cool-down after plain network failures (1 hour, in seconds). -/
def coolDownNetwork : ℕ := 3600

/-- Cool-down after an anti-bot signal (24 hours, in seconds). -/
def coolDownAntiBot : ℕ := 86400

/-- Per-source breaker state.  `closed` carries the outcomes of the last (up
to) 10 requests, most recent first (`true` = failure), and the count of
consecutive failures; `opened` carries the opening time and the armed
cool-down. -/
inductive BreakerState
  | closed (window : List Bool) (consecFails : ℕ)
  | opened (openedAt : ℕ) (coolDown : ℕ)
  | halfOpen
  deriving DecidableEq

/-- Closed→Open trigger: "failure rate exceeds 20% over the last 10
requests, or 5 consecutive failures". -/
def shouldTrip (window : List Bool) (consecFails : ℕ) : Bool :=
  decide (consecFailureLimit ≤ consecFails) ||
  (window.length == rateWindowSize &&
    decide (rateWindowSize < 5 * (window.filter id).length))

/-- Modelled from the spec: the Circuit Breaker state machine (§4.2) exists
in the repository only as the `ErrorHandler` design stub.  Recording a
failed request at time `t`; an anti-bot signal opens immediately with the
24-hour cool-down, otherwise the rolling-rate/consecutive-failure rule
applies.  A failed half-open probe re-opens with the full cool-down. -/
def recordFailure (t : ℕ) (antiBot : Bool) : BreakerState → BreakerState
  | .closed window consecFails =>
    if antiBot then .opened t coolDownAntiBot
    else
      let window := (true :: window).take rateWindowSize
      let consecFails := consecFails + 1
      if shouldTrip window consecFails then .opened t coolDownNetwork
      else .closed window consecFails
  | .opened a cd => .opened a cd
  | .halfOpen => .opened t (if antiBot then coolDownAntiBot else coolDownNetwork)

/-- Modelled from the spec: recording a successful request (§4.2).  A
successful half-open probe closes the breaker afresh. -/
def recordSuccess : BreakerState → BreakerState
  | .closed window _ => .closed ((false :: window).take rateWindowSize) 0
  | .opened a cd => .opened a cd
  | .halfOpen => .closed [] 0

/-- Outcome of a gated call attempt. -/
inductive CallDecision
  | proceed
  | shortCircuited
  | probe
  deriving DecidableEq

/-- Modelled from the spec: the `acquire`-gated call check (§4.2, §8).
While open and inside the cool-down the call is short-circuited with no
network attempt; once the cool-down elapses the breaker half-opens and a
single probe is allowed. -/
def attemptCall (t : ℕ) : BreakerState → CallDecision × BreakerState
  | .closed w c => (.proceed, .closed w c)
  | .opened a cd => if t < a + cd then (.shortCircuited, .opened a cd) else (.probe, .halfOpen)
  | .halfOpen => (.probe, .halfOpen)

/-! ### Rate Governor (spec §4.1, §8) -/

/-- Per-source rate budget: minimum inter-request interval, jitter bound
(both in the same time unit as the clock) and the rolling hourly cap. -/
structure GovConfig where
  minInterval : ℤ
  jitterBound : ℤ
  hourlyCap : ℕ

/-- Governor state for one source: times of past grants, most recent
first. -/
structure GovState where
  grants : List ℤ
  deriving DecidableEq

/-- Result of `acquire`: a grant, or a wait duration after which the caller
must re-request. -/
inductive AcquireResult
  | grant
  | wait (d : ℤ)
  deriving DecidableEq

/-- One hour, in the governor's time unit (seconds). -/
def hourLength : ℤ := 3600

/-- Modelled from the spec: the Rate Governor's `acquire` (§4.1) exists in
the repository only as the `RateLimiter` design stub.  `t` is the current
time and `jitter` the randomized jitter drawn for this request (supplied by
the environment, bounded by the configured jitter bound).  A request is
granted only when the last grant is at least `minInterval + jitter` old and
the rolling hourly cap is not exhausted; otherwise a wait duration is
returned and the state is unchanged. -/
def acquire (cfg : GovConfig) (t : ℤ) (jitter : ℤ) (s : GovState) :
    AcquireResult × GovState :=
  let required := cfg.minInterval + jitter
  match s.grants.head? with
  | some t0 =>
    if t < t0 + required then (.wait (t0 + required - t), s)
    else if cfg.hourlyCap ≤ (s.grants.filter (fun g => decide (t - hourLength < g))).length then
      (.wait hourLength, s)
    else (.grant, ⟨t :: s.grants⟩)
  | none =>
    if cfg.hourlyCap = 0 then (.wait hourLength, s)
    else (.grant, ⟨[t]⟩)

/-- Run the governor over a sequence of requests `(time, jitter)`. -/
def acquireRun (cfg : GovConfig) (s : GovState) : List (ℤ × ℤ) → GovState
  | [] => s
  | r :: rs => acquireRun cfg (acquire cfg r.1 r.2 s).2 rs

/-- Record five consecutive failures (no anti-bot signal) at the given
times. -/
def recordFailures (s : BreakerState) : List ℕ → BreakerState
  | [] => s
  | t :: ts => recordFailures (recordFailure t false s) ts

/-- Run a sequence of gated call attempts, collecting the decisions. -/
def attemptCalls (s : BreakerState) : List ℕ → List CallDecision × BreakerState
  | [] => ([], s)
  | t :: ts =>
    let r := attemptCall t s
    let rs := attemptCalls r.2 ts
    (r.1 :: rs.1, rs.2)

/-! ## Sample data for concrete witnesses -/

/-- A concrete stored property (scenario A of spec §8). -/
def sampleProperty : Property :=
  { id := "p1"
    title := "Karuizawa Villa"
    price := "¥58,000,000"
    location := "Old Karuizawa"
    source_url := "https://example.com/p1"
    scraped_date := "2024-01-01"
    date_first_seen := "2024-01-01T00:00:00Z" }

/-- A concrete service state holding `sampleProperty` with no favourites. -/
def sampleState : ApiState :=
  { properties := [sampleProperty], favoriteIds := ∅ }

/-- A concrete scraped candidate with six image references. -/
def sampleListing : PropertyListing :=
  { title := "Karuizawa Villa"
    price := "¥58,000,000"
    location := "Old Karuizawa"
    image_urls := ["i1", "i2", "i3", "i4", "i5", "i6"]
    source_id := "royal_resort"
    source_url := "https://example.com/p1" }

/-- A concrete validation configuration. -/
def sampleConfig : ValidationConfig :=
  { areaKeywords := ["Karuizawa"]
    descriptionCap := 200
    priceMin := 1000000
    priceMax := 500000000
    isAbsUrl := fun u => strIncludes u "://" }

/-! ## Theorems -/

/-- C10.  The two toggles restore the favourites set, hence the whole state
and the `getFavorites` view. -/
theorem toggleFavorite_involution (st : ApiState) (pid : String) :
    (toggleFavorite (toggleFavorite st pid).2 pid).2 = st ∧
    (getFavorites (toggleFavorite (toggleFavorite st pid).2 pid).2).1 =
      (getFavorites st).1 := by
  have hst : (toggleFavorite (toggleFavorite st pid).2 pid).2 = st := by
    by_cases h : pid ∈ st.favoriteIds
    · simp [toggleFavorite, h, Finset.not_mem_erase, Finset.insert_erase h]
    · simp [toggleFavorite, h, Finset.erase_insert h]
  exact ⟨hst, by rw [hst]⟩

/-- C8.  Queries shorter than two characters return the empty list, and no
result list exceeds ten entries. -/
theorem searchProperties_bounds (st : ApiState) (query : String) :
    (query.length < 2 → (searchProperties st query).1 = []) ∧
    (searchProperties st query).1.length ≤ 10 := by
  constructor
  · intro h
    simp [searchProperties, Or.inr h]
  · by_cases h : query = "" ∨ query.length < 2
    · simp [searchProperties, h]
    · simp only [searchProperties, if_neg h]
      exact List.length_take_le 10 _

/-- C8 witness at a one-character and a two-character query. -/
theorem searchProperties_bounds_witness :
    (searchProperties sampleState "a").1 = [] ∧
    (searchProperties sampleState "ka").1.length ≤ 10 :=
  ⟨(searchProperties_bounds sampleState "a").1 (by decide),
   (searchProperties_bounds sampleState "ka").2⟩

/-- C9.  When no stored property falls in the week window the average price
is the guarded `0` (totalListings is `0`), not a division by zero. -/
theorem weeklyReport_empty_average (dateMs : String → Int)
    (startOfWeek endOfWeek : Int) (st : ApiState)
    (h : ∀ p ∈ st.properties, inWeekWindow dateMs startOfWeek endOfWeek p = false) :
    (getWeeklyReport dateMs startOfWeek endOfWeek st).summary.averagePrice = some 0 ∧
    (getWeeklyReport dateMs startOfWeek endOfWeek st).summary.totalListings = 0 := by
  have hf : st.properties.filter (inWeekWindow dateMs startOfWeek endOfWeek) = [] :=
    List.filter_eq_nil_iff.mpr (by simpa using h)
  constructor <;> simp [getWeeklyReport, hf]

/-- C9 witness: a window entirely before the sample property's timestamp. -/
theorem weeklyReport_empty_average_witness :
    (getWeeklyReport (fun _ => 100) 0 50 sampleState).summary.averagePrice = some 0 ∧
    (getWeeklyReport (fun _ => 100) 0 50 sampleState).summary.totalListings = 0 :=
  weeklyReport_empty_average (fun _ => 100) 0 50 sampleState (by decide)

/-- C4 counterexample.  The claim says the truncated result never exceeds
the cap, but the code appends a three-character ellipsis after cutting:
`truncateText "ab" 1 = "a..."`, of length 4 > 1. -/
theorem truncateText_exceeds_cap : ¬ ((truncateText "ab" 1).length ≤ 1) := by
  decide

/-- C4 amended.  `truncateText s n` returns `s` unchanged when `|s| ≤ n`,
and otherwise the first `n` characters of `s` followed by the ellipsis
`"..."`, of length exactly `n + 3`. -/
theorem truncateText_clamps (s : String) (n : ℕ) :
    (s.length ≤ n → truncateText s n = s) ∧
    (n < s.length →
      truncateText s n = String.mk (s.toList.take n ++ ['.', '.', '.']) ∧
      (truncateText s n).length = n + 3) := by
  constructor
  · intro h
    unfold truncateText
    rw [if_pos (Or.inr h)]
  · intro h
    have h1 : ¬ (s = "" ∨ s.length ≤ n) := by
      rintro (rfl | hle)
      · simp [String.length] at h
      · omega
    have h2 : truncateText s n = String.mk (s.toList.take n ++ ['.', '.', '.']) := by
      unfold truncateText
      rw [if_neg h1]
    refine ⟨h2, ?_⟩
    rw [h2]
    show (s.toList.take n ++ ['.', '.', '.']).length = n + 3
    rw [List.length_append, List.length_take]
    have hlen : s.toList.length = s.length := rfl
    have hdots : (['.', '.', '.'] : List Char).length = 3 := rfl
    omega

/-- C4 witness: the short branch at cap 5 and the truncating branch at
cap 1, both on `"ab"`. -/
theorem truncateText_clamps_witness :
    truncateText "ab" 5 = "ab" ∧
    (truncateText "ab" 1 = String.mk (("ab" : String).toList.take 1 ++ ['.', '.', '.']) ∧
      (truncateText "ab" 1).length = 1 + 3) :=
  ⟨(truncateText_clamps "ab" 5).1 (by decide),
   (truncateText_clamps "ab" 1).2 (by decide)⟩

/-! ### Helper lemmas about the regex scan -/

/-- If no element satisfies the test, `takeWhile` returns nothing. -/
theorem takeWhile_nil_of_all_neg {α : Type} (p : α → Bool) (l : List α)
    (h : ∀ c ∈ l, p c = false) : l.takeWhile p = [] := by
  cases l with
  | nil => rfl
  | cons a l => exact List.takeWhile_cons_of_neg (by simp [h a (by simp)])

/-- A list with no digit-or-comma characters admits no anchored match. -/
theorem matchNumUnitAt_none (sfx cs : List Char)
    (h : ∀ c ∈ cs, isDigitOrComma c = false) :
    matchNumUnitAt sfx cs = none := by
  have h2 : ∀ c ∈ skipYen cs, isDigitOrComma c = false := by
    intro c hc
    apply h
    unfold skipYen at hc
    split at hc
    · exact List.mem_of_mem_tail hc
    · exact hc
  simp [matchNumUnitAt, takeWhile_nil_of_all_neg isDigitOrComma (skipYen cs) h2]

/-- A list with no digit-or-comma characters admits no match anywhere. -/
theorem findNumUnit_none (sfx cs : List Char)
    (h : ∀ c ∈ cs, isDigitOrComma c = false) :
    findNumUnit sfx cs = none := by
  induction cs with
  | nil => rfl
  | cons c cs ih =>
    have hall : ∀ x ∈ c :: cs, isDigitOrComma x = false := h
    simp only [findNumUnit, matchNumUnitAt_none sfx (c :: cs) hall]
    exact ih (fun x hx => h x (List.mem_cons_of_mem c hx))

/-- A digit is a digit-or-comma character. -/
theorem isDigitOrComma_of_isDigit {c : Char} (h : c.isDigit = true) :
    isDigitOrComma c = true := by
  simp [isDigitOrComma, h]

/-- C2 counterexample.  On the empty string — the claim's own example of an
unparseable input — `parsePrice` returns the substitute number `0`; it never
yields a null/absent value there (its TypeScript signature is `number`). -/
theorem parsePrice_empty_is_zero :
    parsePrice "" = some 0 ∧ parsePrice "" ≠ none :=
  ⟨rfl, by decide⟩

/-- A character list with no digit-or-comma characters parses to `0`
through the plain-digits fallback. -/
theorem parsePriceL_unparseable (cs : List Char)
    (h : ∀ c ∈ cs, isDigitOrComma c = false) :
    parsePriceL cs = some 0 := by
  have hd : cs.filter Char.isDigit = [] := by
    refine List.filter_eq_nil_iff.mpr (fun c hc => ?_)
    intro hdig
    have hcontra := h c hc
    rw [isDigitOrComma_of_isDigit hdig] at hcontra
    exact Bool.true_eq_false.mp hcontra
  have hplain : parsePricePlain cs = some 0 := by
    simp [parsePricePlain, hd, parseIntOr0]
  have hoku : parsePriceOku cs = some 0 := by
    by_cases hio : okuUnit.IsInfix cs
    · simp [parsePriceOku, hio, findNumUnit_none okuUnit cs h, hplain]
    · simp [parsePriceOku, hio, hplain]
  by_cases hnil : cs = []
  · simp [parsePriceL, hnil]
  · by_cases him : manUnit.IsInfix cs
    · simp [parsePriceL, hnil, him, findNumUnit_none manUnit cs h, hoku]
    · simp [parsePriceL, hnil, him, hoku]

/-- C2 amended.  For every price string containing no digit and no comma
(covering the empty string and plain non-numeric text), `parsePrice`
returns the substitute number `0` rather than a null value; the original
display string is left to the caller untouched. -/
theorem parsePrice_unparseable_zero (s : String)
    (h : ∀ c ∈ s.toList, isDigitOrComma c = false) :
    parsePrice s = some 0 :=
  parsePriceL_unparseable s.toList h

/-- C2 witness: a non-numeric placeholder string parses to `0`. -/
theorem parsePrice_unparseable_zero_witness : parsePrice "N/A" = some 0 :=
  parsePrice_unparseable_zero "N/A" (by decide)

/-- C5.  Every record accepted by the (spec-modelled) Validation Stage
carries at most 5 image references. -/
theorem validateListing_caps_images (cfg : ValidationConfig)
    (c : PropertyListing) (v : ValidatedListing)
    (h : validateListing cfg c = some v) :
    v.record.image_urls.length ≤ 5 := by
  unfold validateListing at h
  split_ifs at h
  obtain rfl := (Option.some.inj h).symm
  simp

/-- C5 witness: the sample candidate with six image references is accepted
with exactly the first five. -/
theorem validateListing_caps_images_witness :
    (validateListing sampleConfig sampleListing).elim False
      (fun v => v.record.image_urls.length ≤ 5) := by
  cases hv : validateListing sampleConfig sampleListing with
  | none =>
    exact absurd hv (by decide)
  | some v =>
    exact validateListing_caps_images sampleConfig sampleListing v hv

/-- C6.  From a fresh closed breaker, five consecutive recorded failures
open the circuit at the time of the fifth failure; every gated call before
the cool-down elapses is short-circuited and leaves the breaker open, and
hence every whole sequence of such calls is short-circuited throughout. -/
theorem circuitBreaker_five_failures (t1 t2 t3 t4 t5 : ℕ) :
    recordFailures (.closed [] 0) [t1, t2, t3, t4, t5] =
      .opened t5 coolDownNetwork ∧
    (∀ t, t < t5 + coolDownNetwork →
      attemptCall t (.opened t5 coolDownNetwork) =
        (.shortCircuited, .opened t5 coolDownNetwork)) ∧
    (∀ ts : List ℕ, (∀ u ∈ ts, u < t5 + coolDownNetwork) →
      attemptCalls (.opened t5 coolDownNetwork) ts =
        (ts.map fun _ => .shortCircuited, .opened t5 coolDownNetwork)) := by
  refine ⟨rfl, ?_, ?_⟩
  · intro t ht
    simp [attemptCall, ht]
  · intro ts hts
    induction ts with
    | nil => rfl
    | cons u us ih =>
      have hu : u < t5 + coolDownNetwork := hts u (by simp)
      have hrest := ih (fun v hv => hts v (List.mem_cons_of_mem u hv))
      simp [attemptCalls, attemptCall, hu, hrest]

/-- C6 witness: failures at times 10..50 open the breaker; calls at 100,
200 and 3000 (inside the 3600-second cool-down from 50) short-circuit. -/
theorem circuitBreaker_five_failures_witness :
    recordFailures (.closed [] 0) [10, 20, 30, 40, 50] =
      .opened 50 coolDownNetwork ∧
    attemptCall 100 (.opened 50 coolDownNetwork) =
      (.shortCircuited, .opened 50 coolDownNetwork) ∧
    attemptCalls (.opened 50 coolDownNetwork) [100, 200, 3000] =
      ([.shortCircuited, .shortCircuited, .shortCircuited],
        .opened 50 coolDownNetwork) := by
  obtain ⟨h1, h2, h3⟩ := circuitBreaker_five_failures 10 20 30 40 50
  refine ⟨h1, h2 100 (by decide), ?_⟩
  have h4 := h3 [100, 200, 3000] (by decide)
  simpa using h4

/-- The grant spacing the governor maintains: each grant is at least
`minInterval − jitterBound` later than every older grant. -/
theorem acquire_preserves_chain (cfg : GovConfig) (t j : ℤ)
    (hj : -cfg.jitterBound ≤ j) (s : GovState)
    (hs : s.grants.Chain' (fun a b => b + (cfg.minInterval - cfg.jitterBound) ≤ a)) :
    ((acquire cfg t j s).2).grants.Chain'
      (fun a b => b + (cfg.minInterval - cfg.jitterBound) ≤ a) := by
  cases hg : s.grants with
  | nil =>
    unfold acquire
    rw [hg]
    simp only [List.head?_nil]
    split_ifs
    · exact hs
    · exact List.chain'_singleton t
  | cons t0 gs =>
    unfold acquire
    rw [hg]
    simp only [List.head?_cons]
    split_ifs with h1 h2
    · exact hs
    · exact hs
    · exact List.Chain'.cons
        (show t0 + (cfg.minInterval - cfg.jitterBound) ≤ t by omega) (hg ▸ hs)

/-- The spacing invariant carried through a whole request trace. -/
theorem acquireRun_chain (cfg : GovConfig) (reqs : List (ℤ × ℤ))
    (hj : ∀ r ∈ reqs, -cfg.jitterBound ≤ r.2) (s : GovState)
    (hs : s.grants.Chain' (fun a b => b + (cfg.minInterval - cfg.jitterBound) ≤ a)) :
    ((acquireRun cfg s reqs).grants).Chain'
      (fun a b => b + (cfg.minInterval - cfg.jitterBound) ≤ a) := by
  induction reqs generalizing s with
  | nil => exact hs
  | cons r rs ih =>
    exact ih (fun x hx => hj x (List.mem_cons_of_mem r hx)) _
      (acquire_preserves_chain cfg r.1 r.2 (hj r (List.mem_cons_self r rs)) s hs)

/-- C7.  Over every request trace with jitters inside the configured bound
(and the bound not exceeding the minimum interval), every pair of granted
request times is at least `minInterval − jitterBound` apart. -/
theorem rateGovernor_spacing (cfg : GovConfig) (reqs : List (ℤ × ℤ))
    (hj : ∀ r ∈ reqs, -cfg.jitterBound ≤ r.2)
    (hb : cfg.jitterBound ≤ cfg.minInterval) :
    List.Pairwise (fun a b => b + (cfg.minInterval - cfg.jitterBound) ≤ a)
      (acquireRun cfg ⟨[]⟩ reqs).grants := by
  have hc := acquireRun_chain cfg reqs hj ⟨[]⟩ (by simp)
  haveI : IsTrans ℤ (fun a b => b + (cfg.minInterval - cfg.jitterBound) ≤ a) :=
    ⟨fun a b c h1 h2 => by omega⟩
  exact List.chain'_iff_pairwise.mp hc

/-- C7 witness: a 3-unit minimum interval with jitter bound 1; three rapid
requests yield grants spaced at least 2 apart. -/
theorem rateGovernor_spacing_witness :
    List.Pairwise
      (fun a b => b + ((⟨3, 1, 5⟩ : GovConfig).minInterval -
        (⟨3, 1, 5⟩ : GovConfig).jitterBound) ≤ a)
      (acquireRun ⟨3, 1, 5⟩ ⟨[]⟩ [(0, 0), (1, 0), (10, 1)]).grants :=
  rateGovernor_spacing ⟨3, 1, 5⟩ [(0, 0), (1, 0), (10, 1)] (by decide) (by decide)

/-- Each filtering step of `getProperties` only removes elements. -/
theorem mem_applySearchFilter {f : PropertyFilters} {l : List Property}
    {p : Property} (h : p ∈ applySearchFilter f l) : p ∈ l := by
  unfold applySearchFilter at h
  split at h
  · exact List.mem_of_mem_filter h
  · exact h

theorem mem_applyTypeFilter {f : PropertyFilters} {l : List Property}
    {p : Property} (h : p ∈ applyTypeFilter f l) : p ∈ l := by
  unfold applyTypeFilter at h
  split at h
  · split at h
    · exact List.mem_of_mem_filter h
    · exact h
  · exact h

theorem mem_applyLocationFilter {f : PropertyFilters} {l : List Property}
    {p : Property} (h : p ∈ applyLocationFilter f l) : p ∈ l := by
  unfold applyLocationFilter at h
  split at h
  · split at h
    · exact List.mem_of_mem_filter h
    · exact h
  · exact h

theorem mem_applyPriceFilter {f : PropertyFilters} {l : List Property}
    {p : Property} (h : p ∈ applyPriceFilter f l) : p ∈ l := by
  unfold applyPriceFilter at h
  split at h
  · exact List.mem_of_mem_filter h
  · exact h

/-- Sorting permutes, so it preserves the element set. -/
theorem mem_applySort {dateMs : String → Int} {f : PropertyFilters}
    {l : List Property} {p : Property} (h : p ∈ applySort dateMs f l) : p ∈ l := by
  unfold applySort at h
  split at h
  · exact (List.mergeSort_perm l _).mem_iff.mp h
  · exact h

theorem mem_applyPagination {f : PropertyFilters} {l : List Property}
    {p : Property} (h : p ∈ applyPagination f l) : p ∈ l := by
  unfold applyPagination at h
  split at h
  · exact List.mem_of_mem_take (List.mem_of_mem_drop h)
  · exact h

/-- C3.  `getProperties` leaves the stored state untouched, and every
returned property is one of the stored originals (the very same record, so
its `price`, `title` and `location` strings are the stored ones, whether or
not its price parsed). -/
theorem getProperties_preserves_originals (dateMs : String → Int)
    (st : ApiState) (filters : Option PropertyFilters) :
    (getProperties dateMs st filters).2 = st ∧
    ∀ p ∈ (getProperties dateMs st filters).1, p ∈ st.properties := by
  cases filters with
  | none => exact ⟨rfl, fun _ hp => hp⟩
  | some f =>
    refine ⟨rfl, fun p hp => ?_⟩
    exact mem_applySearchFilter (mem_applyTypeFilter (mem_applyLocationFilter
      (mem_applyPriceFilter (mem_applySort (mem_applyPagination hp)))))

/-- C3 witness: an empty filter object runs every step; the stored state and
the sample record come through unchanged. -/
theorem getProperties_preserves_originals_witness :
    (getProperties (fun _ => 0) sampleState (some {})).2 = sampleState ∧
    sampleProperty ∈ (getProperties (fun _ => 0) sampleState (some {})).1 ∧
    sampleProperty ∈ sampleState.properties := by
  obtain ⟨h1, h2⟩ := getProperties_preserves_originals (fun _ => 0) sampleState (some {})
  exact ⟨h1, by decide, h2 sampleProperty (by decide)⟩

/-! ### `parsePrice` on well-formed unit-suffixed price strings (C1) -/

/-- Lemma: `takeWhile` and `dropWhile` cut an all-satisfying run exactly at the first
failing element. -/
theorem takeWhile_append_cut {α : Type} (p : α → Bool) (l : List α) (b : α)
    (t : List α) (hl : ∀ c ∈ l, p c = true) (hb : p b = false) :
    (l ++ b :: t).takeWhile p = l ∧ (l ++ b :: t).dropWhile p = b :: t := by
  induction l with
  | nil =>
    constructor
    · exact List.takeWhile_cons_of_neg (by simp [hb])
    · exact List.dropWhile_cons_of_neg (by simp [hb])
  | cons a l ih =>
    have ha : p a = true := hl a (by simp)
    have ih2 := ih (fun c hc => hl c (List.mem_cons_of_mem a hc))
    constructor
    · rw [List.cons_append, List.takeWhile_cons_of_pos ha, ih2.1]
    · rw [List.cons_append, List.dropWhile_cons_of_pos ha, ih2.2]

/-- Reflexivity of `isPrefixOf`. -/
theorem isPrefixOf_self (l : List Char) : List.isPrefixOf l l = true := by
  induction l with
  | nil => rfl
  | cons c cs ih => simp [List.isPrefixOf, ih]

/-- On a digits-and-commas run, dropping the commas is the same as keeping
the digits. -/
theorem stripCommas_eq_filter_digits (num : List Char)
    (hall : ∀ c ∈ num, isDigitOrComma c = true) :
    stripCommas num = num.filter Char.isDigit := by
  unfold stripCommas
  refine List.filter_congr (fun c hc => ?_)
  have h1 := hall c hc
  by_cases hcm : c = ','
  · subst hcm
    decide
  · have hbeq : (c == ',') = false := by simp [hcm]
    have hdig : c.isDigit = true := by
      rw [isDigitOrComma, hbeq, Bool.or_false] at h1
      exact h1
    rw [hbeq, hdig]
    rfl

/-- The anchored matcher on `¥? <run> <unit...>` captures exactly the run
(no fractional part), provided the unit's first character is neither a
digit, a comma nor a dot. -/
theorem matchNumUnitAt_units (b : Char) (t num : List Char) (yen : Bool)
    (hall : ∀ c ∈ num, isDigitOrComma c = true) (hne : num ≠ [])
    (hb : isDigitOrComma b = false) (hbdot : b ≠ '.') :
    matchNumUnitAt (b :: t) ((if yen then ['¥'] else []) ++ (num ++ b :: t)) =
      some (num, none) := by
  have hskip : skipYen ((if yen then ['¥'] else []) ++ (num ++ b :: t)) =
      num ++ b :: t := by
    cases yen with
    | true =>
      simp [skipYen]
    | false =>
      obtain ⟨n, ns, rfl⟩ : ∃ n ns, num = n :: ns := by
        cases num with
        | nil => exact absurd rfl hne
        | cons n ns => exact ⟨n, ns, rfl⟩
      have hn : isDigitOrComma n = true := hall n (by simp)
      have hny : n ≠ '¥' := by
        intro hEq
        rw [hEq] at hn
        exact absurd hn (by decide)
      unfold skipYen
      rw [if_neg (by simp [hny])]
      simp
  have hcut := takeWhile_append_cut isDigitOrComma num b t hall hb
  simp only [matchNumUnitAt, hskip, hcut.1, hcut.2]
  rw [if_neg hne, if_neg (by simp [hbdot]), if_pos (isPrefixOf_self (b :: t))]

/-- The scan finds the anchored match at the very first position. -/
theorem findNumUnit_units (b : Char) (t num : List Char) (yen : Bool)
    (hall : ∀ c ∈ num, isDigitOrComma c = true) (hne : num ≠ [])
    (hb : isDigitOrComma b = false) (hbdot : b ≠ '.') :
    findNumUnit (b :: t) ((if yen then ['¥'] else []) ++ (num ++ b :: t)) =
      some (num, none) := by
  have hm := matchNumUnitAt_units b t num yen hall hne hb hbdot
  cases yen with
  | true =>
    have hm2 : matchNumUnitAt (b :: t) ('¥' :: (num ++ b :: t)) = some (num, none) := hm
    show findNumUnit (b :: t) ('¥' :: (num ++ b :: t)) = some (num, none)
    simp only [findNumUnit, hm2]
  | false =>
    obtain ⟨n, ns, rfl⟩ : ∃ n ns, num = n :: ns := by
      cases num with
      | nil => exact absurd rfl hne
      | cons n ns => exact ⟨n, ns, rfl⟩
    have hm2 : matchNumUnitAt (b :: t) (n :: (ns ++ b :: t)) =
        some (n :: ns, none) := hm
    show findNumUnit (b :: t) (n :: (ns ++ b :: t)) = some (n :: ns, none)
    simp only [findNumUnit, hm2]

/-- Option-map step shared by the two unit branches. -/
theorem jsDecValue_run (num : List Char)
    (hall : ∀ c ∈ num, isDigitOrComma c = true)
    (hdig : num.filter Char.isDigit ≠ []) (m : ℚ) :
    (jsDecValue (stripCommas num) none).map (· * m) =
      some ((digitsToNat (num.filter Char.isDigit) : ℚ) * m) := by
  rw [stripCommas_eq_filter_digits num hall]
  simp [jsDecValue, hdig]

/-- The full string is never empty in the unit-suffixed shapes. -/
theorem unitShape_ne_nil (yen : Bool) (num sfx : List Char) (hs : sfx ≠ []) :
    (if yen then ['¥'] else []) ++ (num ++ sfx) ≠ [] := by
  cases yen <;> simp [hs]

/-- The unit is an infix of the full string. -/
theorem unitShape_unit_within (yen : Bool) (num sfx : List Char) :
    sfx.IsInfix ((if yen then ['¥'] else []) ++ (num ++ sfx)) :=
  ⟨(if yen then ['¥'] else []) ++ num, [], by simp⟩

/-- The character `万` does not occur in an `億円`-suffixed shape, so the `万円` branch is
skipped. -/
theorem man_not_infix_okuShape (yen : Bool) (num : List Char)
    (hall : ∀ c ∈ num, isDigitOrComma c = true) :
    ¬ manUnit.IsInfix ((if yen then ['¥'] else []) ++ (num ++ okuUnit)) := by
  intro hi
  have hmem : '万' ∈ (if yen then ['¥'] else []) ++ (num ++ okuUnit) :=
    hi.sublist.subset (by simp [manUnit])
  rw [List.mem_append, List.mem_append] at hmem
  rcases hmem with hmem | hmem | hmem
  · cases yen with
    | true => simp at hmem
    | false => simp at hmem
  · have := hall '万' hmem
    exact absurd this (by decide)
  · simp [okuUnit] at hmem

/-- The `万円` case of C1 at the list level. -/
theorem parsePriceL_man (yen : Bool) (num : List Char)
    (hall : ∀ c ∈ num, isDigitOrComma c = true)
    (hdig : num.filter Char.isDigit ≠ []) :
    parsePriceL ((if yen then ['¥'] else []) ++ (num ++ manUnit)) =
      some ((digitsToNat (num.filter Char.isDigit) : ℚ) * 10000) := by
  have hne : num ≠ [] := by
    rintro rfl
    exact hdig rfl
  have hfind : findNumUnit manUnit ((if yen then ['¥'] else []) ++ (num ++ manUnit)) =
      some (num, none) :=
    findNumUnit_units '万' ['円'] num yen hall hne (by decide) (by decide)
  unfold parsePriceL
  rw [if_neg (unitShape_ne_nil yen num manUnit (by decide)),
    if_pos (unitShape_unit_within yen num manUnit), hfind]
  exact jsDecValue_run num hall hdig 10000

/-- The `億円` case of C1 at the list level. -/
theorem parsePriceL_oku (yen : Bool) (num : List Char)
    (hall : ∀ c ∈ num, isDigitOrComma c = true)
    (hdig : num.filter Char.isDigit ≠ []) :
    parsePriceL ((if yen then ['¥'] else []) ++ (num ++ okuUnit)) =
      some ((digitsToNat (num.filter Char.isDigit) : ℚ) * 100000000) := by
  have hne : num ≠ [] := by
    rintro rfl
    exact hdig rfl
  have hfind : findNumUnit okuUnit ((if yen then ['¥'] else []) ++ (num ++ okuUnit)) =
      some (num, none) :=
    findNumUnit_units '億' ['円'] num yen hall hne (by decide) (by decide)
  unfold parsePriceL parsePriceOku
  rw [if_neg (unitShape_ne_nil yen num okuUnit (by decide)),
    if_neg (man_not_infix_okuShape yen num hall),
    if_pos (unitShape_unit_within yen num okuUnit), hfind]
  exact jsDecValue_run num hall hdig 100000000

/-- The plain-digits case of C1 at the list level. -/
theorem parsePriceL_plain (cs : List Char)
    (hman : ¬ manUnit.IsInfix cs) (hoku : ¬ okuUnit.IsInfix cs)
    (hdig : cs.filter Char.isDigit ≠ []) :
    parsePriceL cs = some (digitsToNat (cs.filter Char.isDigit) : ℚ) := by
  have hne : cs ≠ [] := by
    rintro rfl
    exact hdig rfl
  unfold parsePriceL parsePriceOku parsePricePlain
  rw [if_neg hne, if_neg hman, if_neg hoku]
  simp [parseIntOr0, hdig]

/-- C1.  `parsePrice` honours the large-unit multipliers: an optional `¥`,
a comma-separated numeral and the suffix `万円` parse to the numeral times
10,000; with the suffix `億円`, to the numeral times 100,000,000; and a
string containing neither suffix (with at least one digit) parses to the
integer formed by its digit characters in order. -/
theorem parsePrice_unit_multipliers :
    (∀ (yen : Bool) (num : List Char),
      (∀ c ∈ num, isDigitOrComma c = true) → num.filter Char.isDigit ≠ [] →
      parsePrice (String.mk ((if yen then ['¥'] else []) ++ (num ++ manUnit))) =
        some ((digitsToNat (num.filter Char.isDigit) : ℚ) * 10000)) ∧
    (∀ (yen : Bool) (num : List Char),
      (∀ c ∈ num, isDigitOrComma c = true) → num.filter Char.isDigit ≠ [] →
      parsePrice (String.mk ((if yen then ['¥'] else []) ++ (num ++ okuUnit))) =
        some ((digitsToNat (num.filter Char.isDigit) : ℚ) * 100000000)) ∧
    (∀ s : String, ¬ manUnit.IsInfix s.toList → ¬ okuUnit.IsInfix s.toList →
      s.toList.filter Char.isDigit ≠ [] →
      parsePrice s = some (digitsToNat (s.toList.filter Char.isDigit) : ℚ)) :=
  ⟨fun yen num hall hdig => parsePriceL_man yen num hall hdig,
   fun yen num hall hdig => parsePriceL_oku yen num hall hdig,
   fun s h1 h2 h3 => parsePriceL_plain s.toList h1 h2 h3⟩

/-- C1 witness: `"¥5,800万円"` is 58,000,000; `"12億円"` is 1,200,000,000;
`"¥58,000,000"` (neither suffix) is the digit concatenation 58000000. -/
theorem parsePrice_unit_multipliers_witness :
    parsePrice "¥5,800万円" = some ((5800 : ℚ) * 10000) ∧
    parsePrice "12億円" = some ((12 : ℚ) * 100000000) ∧
    parsePrice "¥58,000,000" = some 58000000 :=
  ⟨parsePrice_unit_multipliers.1 true ['5', ',', '8', '0', '0'] (by decide) (by decide),
   parsePrice_unit_multipliers.2.1 false ['1', '2'] (by decide) (by decide),
   parsePrice_unit_multipliers.2.2 "¥58,000,000" (by decide) (by decide) (by decide)⟩

end KaruiSearch
